import Mathlib

/-!
Shallow embedding of the tezos-delegation service core:
the Store (internal/db, delegation_repository.go), the Query Service
(internal/services/delegation_service.go) and the Sync Engine / Upstream Client
(internal/services/poller_service.go, the PollerService variant).

SQL is modelled over a list of rows; transactions by explicit state passing in
Except (an error result is a rolled-back transaction); Go int64 arithmetic is
plain Int except at the one product where overflow is reachable, modelled with
an explicit two's-complement wrap.
-/

namespace TezosDelegation

/-- A calendar timestamp (SQL TIMESTAMP): `year` is what
EXTRACT(YEAR FROM timestamp) yields, `sub` orders the instants within a year.
Lexicographic order on (year, sub) is chronological order. -/
structure Ts where
  year : Int
  sub : Nat
deriving DecidableEq

/-- `a` is chronologically strictly before `b` (SQL timestamp <). -/
def tsLt (a b : Ts) : Bool :=
  decide (a.year < b.year) || (a.year == b.year && decide (a.sub < b.sub))

/-- model.Delegation (internal/model): the five persisted columns of the
delegations table. The DB-assigned surrogate `id` is omitted: no code under
claim ever inspects it. -/
structure Delegation where
  tzktID : Int
  timestamp : Ts
  amount : Int
  delegator : String
  level : Int
deriving DecidableEq

/-- The error taxonomy of internal/apperrors restricted to the constructors the
claimed code paths build, plus db.ErrNoDelegations and the wrapping performed
by fmt.Errorf with a trailing wrapped error. -/
inductive Err where
  | validation (field msg : String)
  | database (op msg : String)
  | databaseWithCause (op msg : String) (cause : Err)
  | noDelegations
  | wrapped (msg : String) (inner : Err)
deriving DecidableEq

instance (ε α : Type) [DecidableEq ε] [DecidableEq α] : DecidableEq (Except ε α) :=
  fun x y =>
    match x, y with
    | .ok a, .ok b =>
      if h : a = b then .isTrue (by rw [h])
      else .isFalse (by intro hc; cases hc; exact h rfl)
    | .error e, .error f =>
      if h : e = f then .isTrue (by rw [h])
      else .isFalse (by intro hc; cases hc; exact h rfl)
    | .ok _, .error _ => .isFalse (by intro hc; cases hc)
    | .error _, .ok _ => .isFalse (by intro hc; cases hc)

/-- errors.Is: equality, else walk the Unwrap chain (fmt wrapping unwraps to the
wrapped error; DatabaseError.Unwrap returns its cause; ValidationError built by
NewValidationError carries a nil cause). -/
def errorsIs (e target : Err) : Bool :=
  e == target ||
    match e with
    | .wrapped _ inner => errorsIs inner target
    | .databaseWithCause _ _ cause => errorsIs cause target
    | _ => false

/-- apperrors.IsValidationError: errors.As with target *ValidationError,
walking the same Unwrap chain. -/
def isValidationError : Err → Bool
  | .validation _ _ => true
  | .wrapped _ inner => isValidationError inner
  | .databaseWithCause _ _ cause => isValidationError cause
  | _ => false

/-- The delegations table, rows in insertion order. -/
abbrev Store := List Delegation

/-- The tzkt_id column. -/
def tzktIDs (st : Store) : List Int := st.map (fun d => d.tzktID)

/-- One stmt.Exec of
INSERT INTO delegations ... ON CONFLICT (tzkt_id) DO NOTHING,
as seen inside the inserting transaction. -/
def execInsert (st : Store) (d : Delegation) : Store :=
  if st.any (fun r => r.tzktID == d.tzktID) then st else st ++ [d]

/-- The per-element loop of InsertDelegations: a nil element aborts with a
ValidationError naming its index, otherwise the row is executed. -/
def insertLoop : List (Option Delegation) → Nat → Store → Except Err Store
  | [], _, st => .ok st
  | none :: _, i, _ =>
      .error (.validation "delegation" ("delegation at index " ++ toString i ++ " is nil"))
  | some d :: rest, i, st => insertLoop rest (i + 1) (execInsert st d)

/-- InsertDelegations (internal/db delegation repository): empty input is a
no-op; otherwise the batch runs in one transaction. An .error result is a
rolled-back transaction: no row of the batch is persisted. Engine-level SQL
failures (begin/prepare/exec/commit) are outside the pure model. -/
def InsertDelegations (delegations : List (Option Delegation)) (st : Store) :
    Except Err Store :=
  if delegations.length == 0 then .ok st
  else insertLoop delegations 0 st

/-- The observable store state after an InsertDelegations call: on error the
transaction rolls back and the store is unchanged. -/
def applyInsert (b : List (Option Delegation)) (st : Store) : Store :=
  match InsertDelegations b st with
  | .ok st2 => st2
  | .error _ => st

/-- MAX over a list, none on empty (SQL MAX aggregate). -/
def listMax? : List Int → Option Int
  | [] => none
  | x :: xs =>
    match listMax? xs with
    | none => some x
    | some m => some (max x m)

/-- GetLatestTzktID:
SELECT COALESCE(MAX(tzkt_id), 0) FROM delegations. -/
def GetLatestTzktID (st : Store) : Int := (listMax? (tzktIDs st)).getD 0

/-- ORDER BY timestamp DESC, level DESC, as the relation
"a may be listed no later than b". -/
def pageOrd (a b : Delegation) : Prop :=
  tsLt b.timestamp a.timestamp = true ∨
    (a.timestamp = b.timestamp ∧ b.level ≤ a.level)

instance : DecidableRel pageOrd := fun a b =>
  inferInstanceAs (Decidable (tsLt b.timestamp a.timestamp = true ∨
    (a.timestamp = b.timestamp ∧ b.level ≤ a.level)))

/-- The WHERE / ORDER BY / OFFSET / LIMIT pipeline shared by the two
ListDelegations queries (with and without the year filter). -/
def queryPage (limit offset : Int) (year : Option Int) (st : Store) :
    List Delegation :=
  let base :=
    match year with
    | some y => st.filter (fun (d : Delegation) => d.timestamp.year == y)
    | none => st
  ((base.insertionSort pageOrd).drop offset.toNat).take limit.toNat

/-- ListDelegations (internal/db delegation repository): parameter validation,
the paginated query, and the distinct ErrNoDelegations signal on an empty
result set. -/
def ListDelegations (limit offset : Int) (year : Option Int) (st : Store) :
    Except Err (List Delegation) :=
  if limit ≤ 0 then
    .error (.validation "limit" ("must be positive, got " ++ toString limit))
  else if offset < 0 then
    .error (.validation "offset" ("must be non-negative, got " ++ toString offset))
  else
    match year with
    | some y =>
      if y < 2018 then
        .error (.validation "year"
          ("must be a valid year from 2018 onwards, got " ++ toString y))
      else
        let result := queryPage limit offset (some y) st
        if result.length == 0 then .error .noDelegations else .ok result
    | none =>
      let result := queryPage limit offset none st
      if result.length == 0 then .error .noDelegations else .ok result

/-- validatePaginationParams (delegation_service.go). -/
def validatePaginationParams (pageNo pageSize : Int) : Except Err Unit :=
  if pageNo < 1 then
    .error (.validation "pageNo" ("must be positive, got " ++ toString pageNo))
  else if pageSize < 1 then
    .error (.validation "pageSize" ("must be positive, got " ++ toString pageSize))
  else if pageSize > 1000 then
    .error (.validation "pageSize" ("cannot exceed 1000, got " ++ toString pageSize))
  else .ok ()

/-- validateYearParam (delegation_service.go): nil year passes; a present year
must lie in 2018..2100. -/
def validateYearParam : Option Int → Except Err Unit
  | none => .ok ()
  | some y =>
    if y < 2018 ∨ y > 2100 then
      .error (.validation "year"
        ("must be between 2018 and 2100, got " ++ toString y))
    else .ok ()

/-- Two's-complement 64-bit wraparound, for the one product
(pageNo - 1) * pageSize whose int64 overflow is reachable. -/
def wrap64 (x : Int) : Int := (x + 2 ^ 63) % 2 ^ 64 - 2 ^ 63

/-- GetDelegations (delegation_service.go), parameterized over the repository's
ListDelegations so that arbitrary repository errors can be considered. -/
def GetDelegationsWith
    (repo : Int → Int → Option Int → Except Err (List Delegation))
    (pageNo pageSize : Int) (year : Option Int) :
    Except Err (List Delegation) :=
  match validatePaginationParams pageNo pageSize with
  | .error e => .error (.wrapped "invalid pagination parameters" e)
  | .ok _ =>
    match validateYearParam year with
    | .error e => .error (.wrapped "invalid year parameter" e)
    | .ok _ =>
      let offset := wrap64 ((pageNo - 1) * pageSize)
      match repo pageSize offset year with
      | .error e =>
        if errorsIs e .noDelegations then .ok []
        else .error (.wrapped "failed to retrieve delegations" e)
      | .ok delegations => .ok delegations

/-- GetDelegations composed with the Store model. -/
def GetDelegations (pageNo pageSize : Int) (year : Option Int) (st : Store) :
    Except Err (List Delegation) :=
  GetDelegationsWith (fun limit offset y => ListDelegations limit offset y st)
    pageNo pageSize year

/-! ### Sync Engine and Upstream Client (poller_service.go, PollerService) -/

/-- Tzkt max page size. -/
def pageSize : Nat := 1000

/-- Maximum retry attempts per fetch call. -/
def maxRetries : Nat := 5

/-- Initial backoff, nanoseconds (time.Second). -/
def initialBackoff : Int := 1000000000

/-- Maximum total wait per fetch call, nanoseconds (2 * time.Minute). -/
def maxTotalWait : Int := 120000000000

/-- Cap, in bytes, on the diagnostic body of an unexpected status. -/
def maxErrorBodyLen : Nat := 4096

/-- syncDelegationsBatch (poller_service.go): read the cursor, fetch beyond it,
empty batch reports caught-up with no mutation, otherwise insert and report
caught-up iff the batch is short of a full page. The HTTP fetch is abstracted
as a function of the cursor; context cancellation is not modelled. -/
def syncDelegationsBatch (fetch : Int → Except Err (List Delegation))
    (st : Store) : Except Err (Bool × Store) :=
  let lastTzktID := GetLatestTzktID st
  match fetch lastTzktID with
  | .error e => .error (.wrapped "failed to fetch delegations from Tzkt API" e)
  | .ok delegations =>
    if delegations.length == 0 then .ok (true, st)
    else
      match InsertDelegations (delegations.map some) st with
      | .error e => .error (.wrapped "failed to store delegations to database" e)
      | .ok st2 => .ok (decide (delegations.length < pageSize), st2)

/-- The upstream feed contract (spec section 6, realized by the request URL
?limit=1000&id.gt=cursor): a successful fetch returns at most pageSize records
with tzktID strictly beyond the cursor. -/
def fetchSpec (feed : List Delegation) (sinceID : Int) : List Delegation :=
  (feed.filter (fun d => decide (sinceID < d.tzktID))).take pageSize

/-- An HTTP response as fetchDelegationBatch observes it. `retryAfter` is
Header.Get("Retry-After") ("" when absent); `decoded` is the result of the JSON
decode of a still-open body, already converted from tzktDelegation to
model.Delegation (that conversion is a field-by-field copy). -/
structure HttpResp where
  status : Nat
  retryAfter : String
  body : String
  decoded : Option (List Delegation)
deriving DecidableEq

/-- How one fetchDelegationBatch call ends. `exhaustedClosedBody` is the
behaviour after the retry loop exhausts its bounds without a conclusive
attempt: resp still points at the last retryable response, whose body was
already closed in its branch, so the JSON decode after the loop fails and the
call returns that decode error
("error decoding response body: http: read on closed response body"). -/
inductive FetchOutcome where
  | success (dels : List Delegation)
  | transportError (msg : String)
  | decodeError
  | unexpectedStatus (status : Nat) (body : String)
  | exhaustedClosedBody
deriving DecidableEq

/-- List of all decimal digits check plus value, for strconv.Atoi. -/
def digitsToNat? (cs : List Char) : Option Nat :=
  if cs.isEmpty then none
  else if cs.all Char.isDigit then
    some (cs.foldl (fun n c => 10 * n + (c.toNat - 48)) 0)
  else none

/-- strconv.Atoi: optional sign, decimal digits, int64 range check (out of
range yields an error in Go, hence none here). -/
def goAtoi (s : String) : Option Int :=
  match s.data with
  | '+' :: rest =>
    (digitsToNat? rest).bind fun n =>
      if n ≤ 9223372036854775807 then some (n : Int) else none
  | '-' :: rest =>
    (digitsToNat? rest).bind fun n =>
      if n ≤ 9223372036854775808 then some (-(n : Int)) else none
  | cs =>
    (digitsToNat? cs).bind fun n =>
      if n ≤ 9223372036854775807 then some (n : Int) else none

/-- parseRetryAfter (poller_service.go): empty header errors; an integer header
is seconds, converted to a time.Duration in nanoseconds with Go's wrapping
int64 product; otherwise the HTTP-date branch. `parseTime` abstracts that
impure branch: it returns time.Until(http.ParseTime(header)) in nanoseconds at
the moment of the call, none when the header is not a valid HTTP-date. -/
def parseRetryAfter (parseTime : String → Option Int) (header : String) :
    Except Unit Int :=
  if header == "" then .error ()
  else
    match goAtoi header with
    | some secs => .ok (wrap64 (secs * 1000000000))
    | none =>
      match parseTime header with
      | some d => .ok d
      | none => .error ()

/-- The retry loop of fetchDelegationBatch. `tr` gives the outcome of the HTTP
exchange of each attempt (a transport error or a response); `fuel` is
maxRetries minus the attempts already made, so the loop guard
attempt < maxRetries is the fuel pattern and the wall-time guard
time.Since(start) < maxTotalWait is checked on entry. `elapsed` models
time.Since(start) as the sum of the waits performed (round-trip time is not
modelled); `backoff` is in nanoseconds. The second component of the result
counts the attempts performed. -/
def fetchGo (tr : Nat → Except String HttpResp)
    (parseTime : String → Option Int) :
    Nat → Nat → Int → Int → FetchOutcome × Nat
  | 0, attempt, _, _ => (.exhaustedClosedBody, attempt)
  | fuel + 1, attempt, elapsed, backoff =>
    if elapsed < maxTotalWait then
      match tr attempt with
      | .error msg => (.transportError msg, attempt + 1)
      | .ok resp =>
        if resp.status = 200 then
          match resp.decoded with
          | some ds => (.success ds, attempt + 1)
          | none => (.decodeError, attempt + 1)
        else if resp.status = 429 ∨ resp.status = 503 then
          match parseRetryAfter parseTime resp.retryAfter with
          | .ok d =>
            if 0 < d then
              fetchGo tr parseTime fuel (attempt + 1) (elapsed + d) backoff
            else
              fetchGo tr parseTime fuel (attempt + 1) (elapsed + backoff) (2 * backoff)
          | .error _ =>
            fetchGo tr parseTime fuel (attempt + 1) (elapsed + backoff) (2 * backoff)
        else if 500 ≤ resp.status ∧ resp.status < 600 then
          fetchGo tr parseTime fuel (attempt + 1) (elapsed + backoff) (2 * backoff)
        else
          (.unexpectedStatus resp.status (resp.body.take maxErrorBodyLen), attempt + 1)
    else (.exhaustedClosedBody, attempt)

/-- fetchDelegationBatch (poller_service.go): the retry loop entered with
attempt 0, no elapsed time and the initial 1s backoff. -/
def fetchDelegationBatch (tr : Nat → Except String HttpResp)
    (parseTime : String → Option Int) : FetchOutcome × Nat :=
  fetchGo tr parseTime maxRetries 0 0 initialBackoff

/-! ### Concrete sample data for witnesses and counterexamples -/

/-- A sample row dated 2022. -/
def row1 : Delegation := ⟨1, ⟨2022, 5⟩, 100, "tz1", 10⟩

/-- A later sample row dated 2022. -/
def row2 : Delegation := ⟨2, ⟨2022, 7⟩, 200, "tz2", 11⟩

/-- A sample row dated 2021. -/
def row3 : Delegation := ⟨3, ⟨2021, 9⟩, 300, "tz3", 12⟩

/-- A trace whose every attempt is answered HTTP 503 with no Retry-After. -/
def tr503 : Nat → Except String HttpResp := fun _ => .ok ⟨503, "", "", none⟩

/-- A trace answering HTTP 429 with a 2-second Retry-After hint, then 200. -/
def tr429 : Nat → Except String HttpResp := fun n =>
  if n = 0 then .ok ⟨429, "2", "", none⟩ else .ok ⟨200, "", "", some [row1]⟩

/-- An HTTP-date parser that recognizes no header. -/
def pt0 : String → Option Int := fun _ => none

/-! ### Store lemmas: the insert loop, conflict skipping, and the max cursor -/

theorem mem_tzktIDs {x : Int} {st : Store} :
    x ∈ tzktIDs st ↔ ∃ d ∈ st, d.tzktID = x := by
  simp [tzktIDs]

theorem execInsert_mem_ids (st : Store) (d : Delegation) :
    d.tzktID ∈ tzktIDs (execInsert st d) := by
  unfold execInsert
  split
  · rename_i hany
    rw [List.any_eq_true] at hany
    obtain ⟨r, hr, he⟩ := hany
    exact mem_tzktIDs.2 ⟨r, hr, by simpa using he⟩
  · exact mem_tzktIDs.2 ⟨d, by simp, rfl⟩

theorem execInsert_mono {x : Int} (st : Store) (d : Delegation)
    (h : x ∈ tzktIDs st) : x ∈ tzktIDs (execInsert st d) := by
  unfold execInsert
  split
  · exact h
  · obtain ⟨r, hr, he⟩ := mem_tzktIDs.1 h
    exact mem_tzktIDs.2 ⟨r, by simp [hr], he⟩

theorem execInsert_rows {r : Delegation} (st : Store) (d : Delegation)
    (h : r ∈ execInsert st d) : r ∈ st ∨ r = d := by
  unfold execInsert at h
  split at h
  · exact Or.inl h
  · rcases List.mem_append.1 h with h1 | h1
    · exact Or.inl h1
    · simp at h1
      exact Or.inr h1

theorem execInsert_of_mem (st : Store) (d : Delegation)
    (h : d.tzktID ∈ tzktIDs st) : execInsert st d = st := by
  unfold execInsert
  rw [if_pos]
  rw [List.any_eq_true]
  obtain ⟨r, hr, he⟩ := mem_tzktIDs.1 h
  exact ⟨r, hr, by simpa using he⟩

theorem insertLoop_mono {b : List (Option Delegation)} :
    ∀ {i : Nat} {st st2 : Store}, insertLoop b i st = .ok st2 →
      ∀ x, x ∈ tzktIDs st → x ∈ tzktIDs st2 := by
  induction b with
  | nil =>
    intro i st st2 h x hx
    simp only [insertLoop] at h
    cases h
    exact hx
  | cons o rest ih =>
    intro i st st2 h x hx
    cases o with
    | none => simp [insertLoop] at h
    | some d => exact ih h x (execInsert_mono st d hx)

theorem insertLoop_rows {b : List (Option Delegation)} :
    ∀ {i : Nat} {st st2 : Store}, insertLoop b i st = .ok st2 →
      ∀ r ∈ st2, r ∈ st ∨ some r ∈ b := by
  induction b with
  | nil =>
    intro i st st2 h r hr
    simp only [insertLoop] at h
    cases h
    exact Or.inl hr
  | cons o rest ih =>
    intro i st st2 h r hr
    cases o with
    | none => simp [insertLoop] at h
    | some d =>
      rcases ih h r hr with h1 | h1
      · rcases execInsert_rows st d h1 with h2 | h2
        · exact Or.inl h2
        · exact Or.inr (by simp [h2])
      · exact Or.inr (by simp [h1])

theorem insertLoop_batch_ids {b : List (Option Delegation)} :
    ∀ {i : Nat} {st st2 : Store}, insertLoop b i st = .ok st2 →
      ∀ d : Delegation, some d ∈ b → d.tzktID ∈ tzktIDs st2 := by
  induction b with
  | nil => intro i st st2 _ d hd; simp at hd
  | cons o rest ih =>
    intro i st st2 h d hd
    cases o with
    | none => simp [insertLoop] at h
    | some d0 =>
      rcases List.mem_cons.1 hd with h1 | h1
      · have hdd : d = d0 := Option.some.inj h1
        subst hdd
        have h2 : insertLoop rest (i + 1) (execInsert st d) = .ok st2 := h
        exact insertLoop_mono h2 _ (execInsert_mem_ids st d)
      · exact ih h d h1

theorem insertLoop_stable {b : List (Option Delegation)} :
    ∀ {i : Nat} {st : Store},
      (∀ o ∈ b, ∃ d : Delegation, o = some d ∧ d.tzktID ∈ tzktIDs st) →
      insertLoop b i st = .ok st := by
  induction b with
  | nil => intro i st _; rfl
  | cons o rest ih =>
    intro i st h
    obtain ⟨d, hd, hid⟩ := h o (by simp)
    subst hd
    show insertLoop rest (i + 1) (execInsert st d) = .ok st
    rw [execInsert_of_mem st d hid]
    exact ih fun o ho => h o (by simp [ho])

theorem insertLoop_all_some {b : List (Option Delegation)} :
    ∀ {i : Nat} {st st2 : Store}, insertLoop b i st = .ok st2 →
      ∀ o ∈ b, ∃ d : Delegation, o = some d := by
  induction b with
  | nil => intro i st st2 _ o ho; simp at ho
  | cons o0 rest ih =>
    intro i st st2 h o ho
    cases o0 with
    | none => simp [insertLoop] at h
    | some d0 =>
      rcases List.mem_cons.1 ho with h1 | h1
      · exact ⟨d0, h1⟩
      · exact ih h o h1

theorem listMax?_isSome {l : List Int} (h : l ≠ []) :
    ∃ m, listMax? l = some m := by
  cases l with
  | nil => exact absurd rfl h
  | cons x xs =>
    simp only [listMax?]
    cases listMax? xs <;> simp

theorem listMax?_mem {l : List Int} {m : Int} (h : listMax? l = some m) :
    m ∈ l := by
  induction l generalizing m with
  | nil => simp [listMax?] at h
  | cons x xs ih =>
    simp only [listMax?] at h
    cases hxs : listMax? xs with
    | none => rw [hxs] at h; cases h; simp
    | some m0 =>
      rw [hxs] at h
      cases h
      rcases max_choice x m0 with hc | hc <;> rw [hc]
      · simp
      · exact List.mem_cons_of_mem x (ih hxs)

theorem le_listMax? {l : List Int} {x m : Int} (hx : x ∈ l)
    (h : listMax? l = some m) : x ≤ m := by
  induction l generalizing m with
  | nil => simp at hx
  | cons y ys ih =>
    simp only [listMax?] at h
    rcases List.mem_cons.1 hx with h1 | h1
    · subst h1
      cases hys : listMax? ys with
      | none =>
        rw [hys] at h
        have h2 : some x = some m := h
        cases h2
        exact le_refl _
      | some m0 =>
        rw [hys] at h
        have h2 : some (max x m0) = some m := h
        cases h2
        exact le_max_left _ _
    · cases hys : listMax? ys with
      | none =>
        obtain ⟨m1, hm1⟩ := listMax?_isSome (List.ne_nil_of_mem h1)
        rw [hm1] at hys
        cases hys
      | some m0 =>
        rw [hys] at h
        have h2 : some (max y m0) = some m := h
        cases h2
        exact le_trans (ih h1 hys) (le_max_right _ _)

theorem getLatest_le_of_mono (st st2 : Store) (hne : st ≠ [])
    (hsub : ∀ x, x ∈ tzktIDs st → x ∈ tzktIDs st2) :
    GetLatestTzktID st ≤ GetLatestTzktID st2 := by
  have hne2 : tzktIDs st ≠ [] := by
    cases st with
    | nil => exact absurd rfl hne
    | cons d rest => simp [tzktIDs]
  obtain ⟨m, hm⟩ := listMax?_isSome hne2
  have hmem : m ∈ tzktIDs st2 := hsub m (listMax?_mem hm)
  have hne3 : tzktIDs st2 ≠ [] := List.ne_nil_of_mem hmem
  obtain ⟨m2, hm2⟩ := listMax?_isSome hne3
  have := le_listMax? hmem hm2
  unfold GetLatestTzktID
  rw [hm, hm2]
  simpa using this

theorem getLatest_nonneg (st : Store) (h : ∀ r ∈ st, 0 ≤ r.tzktID) :
    0 ≤ GetLatestTzktID st := by
  unfold GetLatestTzktID
  cases hm : listMax? (tzktIDs st) with
  | none => simp
  | some m =>
    obtain ⟨r, hr, hrm⟩ := mem_tzktIDs.1 (listMax?_mem hm)
    simpa using hrm ▸ h r hr

/-! ### Claim theorems -/

/-- C3: InsertDelegations is idempotent — re-running a batch leaves the
observable (rolled-back-on-error) store state unchanged — and re-ingesting a
record whose sourceID is already stored is a no-op, not an error. -/
theorem c3_insert_idempotent (b : List (Option Delegation)) (st : Store)
    (d : Delegation) (hd : d.tzktID ∈ tzktIDs st) :
    applyInsert b (applyInsert b st) = applyInsert b st ∧
    InsertDelegations [some d] st = .ok st := by
  constructor
  · unfold applyInsert
    cases hi : InsertDelegations b st with
    | error e => simp [hi]
    | ok st1 =>
      have h2 : InsertDelegations b st1 = .ok st1 := by
        unfold InsertDelegations at hi ⊢
        by_cases hb : b.length == 0
        · rw [if_pos hb]
        · rw [if_neg hb] at hi ⊢
          refine insertLoop_stable fun o ho => ?_
          obtain ⟨d0, hd0⟩ := insertLoop_all_some hi o ho
          exact ⟨d0, hd0, insertLoop_batch_ids hi d0 (hd0 ▸ ho)⟩
      simp [h2]
  · show InsertDelegations [some d] st = .ok st
    unfold InsertDelegations
    rw [if_neg (by simp)]
    show insertLoop [] 1 (execInsert st d) = .ok st
    rw [execInsert_of_mem st d hd]
    rfl

/-- C3 witness: the idempotence and duplicate-no-op facts at a concrete store
and batch. -/
theorem c3_insert_idempotent_witness :
    applyInsert [some row1, some row2] (applyInsert [some row1, some row2] [row1]) =
      applyInsert [some row1, some row2] [row1] ∧
    InsertDelegations [some row1] [row1] = .ok [row1] :=
  c3_insert_idempotent [some row1, some row2] [row1] row1 (by decide)

/-- C4 counterexample: from the empty store (cursor at the sentinel 0),
inserting a record with a negative sourceID drops GetLatestTzktID to -5,
so the cursor is not non-decreasing over every insert sequence. -/
theorem c4_counterexample :
    InsertDelegations [some ⟨-5, ⟨2022, 0⟩, 0, "tz1", 0⟩] [] =
      .ok [⟨-5, ⟨2022, 0⟩, 0, "tz1", 0⟩] ∧
    GetLatestTzktID ([] : Store) = 0 ∧
    GetLatestTzktID (applyInsert [some ⟨-5, ⟨2022, 0⟩, 0, "tz1", 0⟩] []) = -5 ∧
    ¬ GetLatestTzktID ([] : Store) ≤
        GetLatestTzktID (applyInsert [some ⟨-5, ⟨2022, 0⟩, 0, "tz1", 0⟩] []) := by
  decide

/-- C4 (amended): GetLatestTzktID is 0 on the empty store, and it is
non-decreasing across any InsertDelegations call whenever the store is already
nonempty, or every record of the batch carries a non-negative sourceID (as
every record issued by the upstream feed does). -/
theorem c4_cursor_monotone (b : List (Option Delegation)) (st : Store)
    (h : st ≠ [] ∨ ∀ d : Delegation, some d ∈ b → 0 ≤ d.tzktID) :
    GetLatestTzktID ([] : Store) = 0 ∧
    GetLatestTzktID st ≤ GetLatestTzktID (applyInsert b st) := by
  refine ⟨rfl, ?_⟩
  unfold applyInsert
  cases hi : InsertDelegations b st with
  | error e => simp
  | ok st1 =>
    simp only
    unfold InsertDelegations at hi
    by_cases hb : b.length == 0
    · rw [if_pos hb] at hi; cases hi; exact le_refl _
    · rw [if_neg hb] at hi
      by_cases hst : st = []
      · subst hst
        rcases h with h1 | h1
        · exact absurd rfl h1
        · have hall : ∀ r ∈ st1, 0 ≤ r.tzktID := by
            intro r hr
            rcases insertLoop_rows hi r hr with h2 | h2
            · simp at h2
            · exact h1 r h2
          rw [show GetLatestTzktID ([] : Store) = 0 from rfl]
          exact getLatest_nonneg st1 hall
      · exact getLatest_le_of_mono st st1 hst (insertLoop_mono hi)

/-- C4 witness: monotonicity instantiated at a nonempty store and at an
all-non-negative batch. -/
theorem c4_cursor_monotone_witness :
    GetLatestTzktID ([] : Store) = 0 ∧
    GetLatestTzktID [row1] ≤ GetLatestTzktID (applyInsert [some row2] [row1]) :=
  c4_cursor_monotone [some row2] [row1] (Or.inl (by decide))

/-- C7: a batch containing a nil element makes InsertDelegations return a
ValidationError on the "delegation" field, and no state is committed — the
Except error is the rolled-back transaction, so no element of the batch,
including those before the nil, is persisted. -/
theorem c7_nil_aborts (b : List (Option Delegation)) (st : Store)
    (h : none ∈ b) :
    (∃ msg, InsertDelegations b st = .error (.validation "delegation" msg)) ∧
    ∀ st2, InsertDelegations b st ≠ .ok st2 := by
  have key : ∀ (b : List (Option Delegation)) (i : Nat) (st : Store), none ∈ b →
      ∃ msg, insertLoop b i st = .error (.validation "delegation" msg) := by
    intro b
    induction b with
    | nil => intro i st hmem; simp at hmem
    | cons o rest ih =>
      intro i st hmem
      cases o with
      | none => exact ⟨_, rfl⟩
      | some d =>
        have : none ∈ rest := by
          rcases List.mem_cons.1 hmem with h1 | h1
          · exact absurd h1 (by simp)
          · exact h1
        exact ih (i + 1) (execInsert st d) this
  have hne : ¬(b.length == 0) = true := by
    cases b with
    | nil => simp at h
    | cons o rest => simp
  obtain ⟨msg, hmsg⟩ := key b 0 st h
  have hmain : InsertDelegations b st = .error (.validation "delegation" msg) := by
    unfold InsertDelegations
    rw [if_neg hne]
    exact hmsg
  exact ⟨⟨msg, hmain⟩, fun st2 hc => by rw [hmain] at hc; cases hc⟩

/-- C7 witness: a concrete batch with a nil at index 1 is rejected and
nothing — not even the element before the nil — is persisted. -/
theorem c7_nil_aborts_witness :
    (∃ msg, InsertDelegations [some row1, none, some row2] [] =
      .error (.validation "delegation" msg)) ∧
    ∀ st2, InsertDelegations [some row1, none, some row2] [] ≠ .ok st2 :=
  c7_nil_aborts [some row1, none, some row2] [] (by decide)

theorem validatePaginationParams_error_shape {p s : Int} {e : Err}
    (h : validatePaginationParams p s = .error e) :
    ∃ f m, e = .validation f m := by
  unfold validatePaginationParams at h
  split_ifs at h <;> cases h <;> exact ⟨_, _, rfl⟩

/-- C1 counterexample: getPage(0, 50, nil) is not treated as getPage(1, 50,
nil): on the empty store the former is a pageNo validation error while the
latter is the empty page, so the two calls do not return the same result. -/
theorem c1_counterexample :
    GetDelegations 0 50 none [] =
      .error (.wrapped "invalid pagination parameters"
        (.validation "pageNo" "must be positive, got 0")) ∧
    GetDelegations 1 50 none [] = .ok [] ∧
    GetDelegations 0 50 none [] ≠ GetDelegations 1 50 none [] := by
  decide

/-- C1 (amended): a getPage call with pageNumber < 1 is rejected with a
ValidationError on the pageNo field, wrapped by the service, for every
repository and every other parameter; pageNumber is never clamped to 1. -/
theorem c1_pageNo_rejected
    (repo : Int → Int → Option Int → Except Err (List Delegation))
    (pageNo pageSize : Int) (year : Option Int) (h : pageNo < 1) :
    GetDelegationsWith repo pageNo pageSize year =
      .error (.wrapped "invalid pagination parameters"
        (.validation "pageNo" ("must be positive, got " ++ toString pageNo))) := by
  unfold GetDelegationsWith validatePaginationParams
  rw [if_pos h]

/-- C1 witness: the amended rejection at pageNumber 0. -/
theorem c1_pageNo_rejected_witness :
    GetDelegationsWith (fun _ _ _ => .ok []) 0 50 none =
      .error (.wrapped "invalid pagination parameters"
        (.validation "pageNo" ("must be positive, got " ++ toString (0 : Int)))) :=
  c1_pageNo_rejected (fun _ _ _ => .ok []) 0 50 none (by decide)

/-- C10: a present year above 2100 makes getPage return a validation error
without consulting the repository (the result is the same for every
repository), and a present year passes validateYearParam exactly when it lies
in 2018..2100. -/
theorem c10_year_upper_bound
    (repo repo2 : Int → Int → Option Int → Except Err (List Delegation))
    (pageNo pageSize y : Int) (h : 2100 < y) :
    (∃ e, GetDelegationsWith repo pageNo pageSize (some y) = .error e ∧
      isValidationError e = true) ∧
    GetDelegationsWith repo pageNo pageSize (some y) =
      GetDelegationsWith repo2 pageNo pageSize (some y) ∧
    (∀ z : Int, validateYearParam (some z) = .ok () ↔ 2018 ≤ z ∧ z ≤ 2100) := by
  have hy : validateYearParam (some y) =
      .error (.validation "year"
        ("must be between 2018 and 2100, got " ++ toString y)) := by
    simp only [validateYearParam]
    rw [if_pos (Or.inr h)]
  refine ⟨?_, ?_, ?_⟩
  · cases hv : validatePaginationParams pageNo pageSize with
    | error e =>
      obtain ⟨f, m, hfm⟩ := validatePaginationParams_error_shape hv
      refine ⟨.wrapped "invalid pagination parameters" e, ?_, ?_⟩
      · unfold GetDelegationsWith
        rw [hv]
      · subst hfm
        rfl
    | ok u =>
      cases u
      refine ⟨.wrapped "invalid year parameter"
        (.validation "year" ("must be between 2018 and 2100, got " ++ toString y)),
        ?_, rfl⟩
      unfold GetDelegationsWith
      rw [hv, hy]
  · cases hv : validatePaginationParams pageNo pageSize with
    | error e =>
      show GetDelegationsWith repo pageNo pageSize (some y) =
        GetDelegationsWith repo2 pageNo pageSize (some y)
      unfold GetDelegationsWith
      rw [hv]
    | ok u =>
      cases u
      unfold GetDelegationsWith
      rw [hv, hy]
  · intro z
    simp only [validateYearParam]
    by_cases hz : z < 2018 ∨ z > 2100
    · rw [if_pos hz]
      constructor
      · intro hc
        cases hc
      · intro hc
        exact absurd hz (by omega)
    · rw [if_neg hz]
      constructor
      · intro _
        omega
      · intro _
        rfl

/-- C10 witness: year 2101 is rejected as a validation error independently of
the repository, and 2100 still passes year validation. -/
theorem c10_year_upper_bound_witness :
    (∃ e, GetDelegationsWith (fun _ _ _ => .ok []) 1 50 (some 2101) = .error e ∧
      isValidationError e = true) ∧
    GetDelegationsWith (fun _ _ _ => .ok []) 1 50 (some 2101) =
      GetDelegationsWith (fun _ _ _ => .error (.database "q" "boom")) 1 50 (some 2101) ∧
    (validateYearParam (some 2100) = .ok () ↔ 2018 ≤ (2100 : Int) ∧ (2100 : Int) ≤ 2100) := by
  have h := c10_year_upper_bound (fun _ _ _ => .ok [])
    (fun _ _ _ => .error (.database "q" "boom")) 1 50 2101 (by decide)
  exact ⟨h.1, h.2.1, h.2.2 2100⟩

/-- C8: under valid service parameters, a repository error that is (via
errors.Is) ErrNoDelegations becomes the empty page with no error; any other
repository error is propagated wrapped; and the Store itself returns the
distinct ErrNoDelegations signal whenever the filtered page it computes is
empty. -/
theorem c8_no_rows_to_empty
    (repo : Int → Int → Option Int → Except Err (List Delegation))
    (pageNo pageSize limit offset : Int) (year : Option Int) (st : Store)
    (e : Err)
    (hp : validatePaginationParams pageNo pageSize = .ok ())
    (hy : validateYearParam year = .ok ()) :
    (repo pageSize (wrap64 ((pageNo - 1) * pageSize)) year = .error e →
      errorsIs e .noDelegations = true →
      GetDelegationsWith repo pageNo pageSize year = .ok []) ∧
    (repo pageSize (wrap64 ((pageNo - 1) * pageSize)) year = .error e →
      errorsIs e .noDelegations = false →
      GetDelegationsWith repo pageNo pageSize year =
        .error (.wrapped "failed to retrieve delegations" e)) ∧
    (0 < limit → 0 ≤ offset → (∀ z : Int, year = some z → 2018 ≤ z) →
      queryPage limit offset year st = [] →
      ListDelegations limit offset year st = .error .noDelegations) := by
  refine ⟨?_, ?_, ?_⟩
  · intro hr his
    unfold GetDelegationsWith
    rw [hp, hy]
    simp only [hr, his]
    rfl
  · intro hr his
    unfold GetDelegationsWith
    rw [hp, hy]
    simp only [hr, his]
    rfl
  · intro hl ho hz hq
    have hl2 : ¬ limit ≤ 0 := by omega
    have ho2 : ¬ offset < 0 := by omega
    cases year with
    | none => simp [ListDelegations, hl2, ho2, hq]
    | some z =>
      have hz2 : ¬ z < 2018 := by have := hz z rfl; omega
      simp [ListDelegations, hl2, ho2, hz2, hq]

/-- C8 witness: the empty filtered page at a concrete call becomes the
no-rows signal at the Store and the empty page at the service. -/
theorem c8_no_rows_to_empty_witness :
    GetDelegationsWith (fun _ _ _ => .error .noDelegations) 1 50 none = .ok [] ∧
    ListDelegations 50 0 none [] = .error .noDelegations := by
  have h := c8_no_rows_to_empty (fun _ _ _ => .error .noDelegations)
    1 50 50 0 none [] .noDelegations (by decide) (by decide)
  exact ⟨h.1 rfl (by decide),
    h.2.2 (by decide) (by decide) (fun z hz => by cases hz) (by decide)⟩

theorem ts_eq_iff {a b : Ts} : a = b ↔ a.year = b.year ∧ a.sub = b.sub := by
  constructor
  · intro h
    rw [h]
    exact ⟨rfl, rfl⟩
  · intro ⟨h1, h2⟩
    cases a
    cases b
    simp_all

instance : IsTotal Delegation pageOrd where
  total a b := by
    simp only [pageOrd, tsLt, Bool.or_eq_true, Bool.and_eq_true,
      decide_eq_true_eq, beq_iff_eq, ts_eq_iff]
    omega

instance : IsTrans Delegation pageOrd where
  trans a b c hab hbc := by
    simp only [pageOrd, tsLt, Bool.or_eq_true, Bool.and_eq_true,
      decide_eq_true_eq, beq_iff_eq, ts_eq_iff] at hab hbc ⊢
    omega

theorem queryPage_pairwise (limit offset : Int) (year : Option Int)
    (st : Store) : (queryPage limit offset year st).Pairwise pageOrd := by
  unfold queryPage
  refine List.Pairwise.sublist (List.take_sublist _ _) ?_
  refine List.Pairwise.sublist (List.drop_sublist _ _) ?_
  exact List.sorted_insertionSort pageOrd _

theorem ListDelegations_ok_eq {limit offset : Int} {year : Option Int}
    {st : Store} {res : List Delegation}
    (h : ListDelegations limit offset year st = .ok res) :
    res = queryPage limit offset year st := by
  unfold ListDelegations at h
  by_cases hl : limit ≤ 0
  · rw [if_pos hl] at h
    cases h
  rw [if_neg hl] at h
  by_cases ho : offset < 0
  · rw [if_pos ho] at h
    cases h
  rw [if_neg ho] at h
  cases year with
  | none =>
    by_cases hq : ((queryPage limit offset none st).length == 0) = true
    · simp only [hq, if_true] at h
      cases h
    · simp only [hq, if_false] at h
      cases h
      rfl
  | some z =>
    by_cases hz : z < 2018
    · simp only [hz, if_true] at h
      cases h
    · simp only [hz, if_false] at h
      by_cases hq : ((queryPage limit offset (some z) st).length == 0) = true
      · simp only [hq, if_true] at h
        cases h
      · simp only [hq, if_false] at h
        cases h
        rfl

/-- C9: every successful ListDelegations page is pairwise ordered by
occurredAt descending with blockLevel descending as the tie-break — for any
two records A before B on the page, A.occurredAt is after B.occurredAt, or the
timestamps are equal and A.blockLevel is at least B.blockLevel — with or
without the year filter. -/
theorem c9_page_ordering (limit offset : Int) (year : Option Int) (st : Store)
    (res : List Delegation) (h : ListDelegations limit offset year st = .ok res) :
    res.Pairwise pageOrd := by
  rw [ListDelegations_ok_eq h]
  exact queryPage_pairwise limit offset year st

/-- C9 witness: the ordering fact at a concrete three-row store, with rows
listed newest first and the 2021 row last. -/
theorem c9_page_ordering_witness :
    ([row2, row1, row3] : List Delegation).Pairwise pageOrd :=
  c9_page_ordering 50 0 none [row1, row2, row3] [row2, row1, row3] (by decide)

/-- C2: a sync cycle reads the max cursor from the Store and fetches the batch
strictly beyond it (the upstream contract of ?limit=1000&id.gt=cursor): an
empty batch reports caught-up with no store mutation; a nonempty batch is
inserted and the cycle reports caught-up iff the batch is strictly shorter
than the page size 1000. -/
theorem c2_sync_cycle (feed : List Delegation) (st : Store) :
    (fetchSpec feed (GetLatestTzktID st) = [] →
      syncDelegationsBatch (fun c => .ok (fetchSpec feed c)) st = .ok (true, st)) ∧
    (∀ st2, fetchSpec feed (GetLatestTzktID st) ≠ [] →
      InsertDelegations ((fetchSpec feed (GetLatestTzktID st)).map some) st = .ok st2 →
      syncDelegationsBatch (fun c => .ok (fetchSpec feed c)) st =
        .ok (decide ((fetchSpec feed (GetLatestTzktID st)).length < pageSize), st2)) := by
  constructor
  · intro hb
    simp [syncDelegationsBatch, hb]
  · intro st2 hb hi
    have hlen : ((fetchSpec feed (GetLatestTzktID st)).length == 0) = false := by
      simp only [beq_eq_false_iff_ne, ne_eq, List.length_eq_zero]
      exact hb
    simp [syncDelegationsBatch, hlen, hi]

/-- C2 witness: one cycle on the empty store against a three-record feed
inserts all three and reports caught-up (3 < 1000); one cycle against a feed
with nothing beyond the cursor reports caught-up with the store unchanged. -/
theorem c2_sync_cycle_witness :
    syncDelegationsBatch (fun c => .ok (fetchSpec [row1, row2, row3] c)) [] =
      .ok (true, [row1, row2, row3]) ∧
    syncDelegationsBatch (fun c => .ok (fetchSpec [] c)) [row1] = .ok (true, [row1]) := by
  constructor
  · have h := (c2_sync_cycle [row1, row2, row3] []).2 [row1, row2, row3]
      (by decide) (by decide)
    simpa using h
  · exact (c2_sync_cycle [] [row1]).1 (by decide)

theorem fetchGo_attempts_le (tr : Nat → Except String HttpResp)
    (pt : String → Option Int) :
    ∀ (fuel attempt : Nat) (elapsed backoff : Int),
      (fetchGo tr pt fuel attempt elapsed backoff).2 ≤ attempt + fuel := by
  intro fuel
  induction fuel with
  | zero => intro attempt e b; exact le_refl _
  | succ fuel ih =>
    intro attempt e b
    unfold fetchGo
    repeat' split
    all_goals first
      | exact le_trans (ih _ _ _) (by omega)
      | exact (show attempt + 1 ≤ attempt + (fuel + 1) by omega)
      | exact (show attempt ≤ attempt + (fuel + 1) by omega)

/-- C5 counterexample: with every attempt answered HTTP 503 (no Retry-After),
the bounds are exhausted after 5 attempts, and the call's outcome is the
decode failure on the last response's already-closed body — a fresh decode
error, not an error surfacing the last observed failure (status 503 and its
body). -/
theorem c5_counterexample :
    fetchDelegationBatch tr503 pt0 = (.exhaustedClosedBody, 5) ∧
    FetchOutcome.exhaustedClosedBody ≠ .unexpectedStatus 503 "" ∧
    FetchOutcome.exhaustedClosedBody ≠ .transportError "" := by
  decide

/-- C5 (amended): the retry loop is bounded by whichever comes first of
5 attempts or 2 minutes of accumulated wait; once the accumulated wait
reaches 2 minutes, or the 5 attempts are used up, the loop stops with the
closed-body decode failure rather than the last error observed. -/
theorem c5_retry_bounds (tr : Nat → Except String HttpResp)
    (pt : String → Option Int) :
    (fetchDelegationBatch tr pt).2 ≤ maxRetries ∧
    (∀ (fuel attempt : Nat) (elapsed backoff : Int), maxTotalWait ≤ elapsed →
      fetchGo tr pt fuel attempt elapsed backoff = (.exhaustedClosedBody, attempt)) ∧
    (∀ (elapsed backoff : Int),
      fetchGo tr pt 0 maxRetries elapsed backoff = (.exhaustedClosedBody, maxRetries)) := by
  refine ⟨?_, ?_, fun e b => rfl⟩
  · have h := fetchGo_attempts_le tr pt maxRetries 0 0 initialBackoff
    simpa [fetchDelegationBatch] using h
  · intro fuel attempt e b he
    cases fuel with
    | zero => rfl
    | succ fuel =>
      unfold fetchGo
      rw [if_neg (by omega)]

/-- C5 witness: the attempt bound at the all-503 trace, and the wall-time
stop at an elapsed time at the 2-minute bound. -/
theorem c5_retry_bounds_witness :
    (fetchDelegationBatch tr503 pt0).2 ≤ maxRetries ∧
    fetchGo tr503 pt0 3 2 maxTotalWait 1000 = (.exhaustedClosedBody, 2) := by
  have h := c5_retry_bounds tr503 pt0
  exact ⟨h.1, h.2.1 3 2 maxTotalWait 1000 (le_refl _)⟩

/-- C6: on an HTTP 429 or 503 attempt (within the wall-time bound), the loop
waits exactly the Retry-After hint when it parses to a positive duration and
leaves the backoff unchanged; otherwise (no hint, unparsable hint, or a
non-positive one) it waits the current backoff and doubles it; in both cases
it then retries the same request with the next attempt; the backoff of a
fresh call starts at 1 second. -/
theorem c6_retry_after_hint (tr : Nat → Except String HttpResp)
    (pt : String → Option Int) (fuel attempt : Nat) (elapsed backoff : Int)
    (resp : HttpResp) (htr : tr attempt = .ok resp)
    (hst : resp.status = 429 ∨ resp.status = 503)
    (he : elapsed < maxTotalWait) :
    (∀ d : Int, parseRetryAfter pt resp.retryAfter = .ok d → 0 < d →
      fetchGo tr pt (fuel + 1) attempt elapsed backoff =
        fetchGo tr pt fuel (attempt + 1) (elapsed + d) backoff) ∧
    (∀ d : Int, parseRetryAfter pt resp.retryAfter = .ok d → d ≤ 0 →
      fetchGo tr pt (fuel + 1) attempt elapsed backoff =
        fetchGo tr pt fuel (attempt + 1) (elapsed + backoff) (2 * backoff)) ∧
    (parseRetryAfter pt resp.retryAfter = .error () →
      fetchGo tr pt (fuel + 1) attempt elapsed backoff =
        fetchGo tr pt fuel (attempt + 1) (elapsed + backoff) (2 * backoff)) ∧
    fetchDelegationBatch tr pt = fetchGo tr pt maxRetries 0 0 initialBackoff := by
  have h200 : ¬ resp.status = 200 := by
    rcases hst with h1 | h1 <;> omega
  refine ⟨?_, ?_, ?_, rfl⟩
  · intro d hd hdpos
    rw [fetchGo]
    rw [if_pos he, htr]
    simp only [h200, if_false, hst, if_pos, hd]
    rw [if_pos hdpos]
  · intro d hd hdneg
    rw [fetchGo]
    rw [if_pos he, htr]
    simp only [h200, if_false, hst, if_pos, hd]
    rw [if_neg (by omega : ¬ (0 : Int) < d)]
  · intro hd
    rw [fetchGo]
    rw [if_pos he, htr]
    simp only [h200, if_false, hst, if_pos, hd]

/-- C6 witness: a 429 response with hint "2" makes the loop wait exactly
2 seconds (2000000000 ns) with the backoff untouched, then retry. -/
theorem c6_retry_after_hint_witness :
    fetchGo tr429 pt0 5 0 0 initialBackoff =
      fetchGo tr429 pt0 4 1 2000000000 initialBackoff ∧
    fetchDelegationBatch tr429 pt0 = fetchGo tr429 pt0 maxRetries 0 0 initialBackoff := by
  have h := c6_retry_after_hint tr429 pt0 4 0 0 initialBackoff
    ⟨429, "2", "", none⟩ rfl (Or.inl rfl) (by decide)
  constructor
  · have h1 := h.1 2000000000 (by decide) (by decide)
    simpa using h1
  · exact h.2.2.2

end TezosDelegation
